import Mathlib

/-!
Shallow embedding of the slab allocator in `src/slab_allocator/src/lib.rs`.

The Rust code manages raw memory through pointers; here addresses are `Nat`
and the intrusive free list of a slab is represented as the list of slot
addresses in chain order (head of the list = head of the free list).  The
underlying raw memory provider (`alloc` from `alloc::alloc`) is modelled as
an `Option Nat` parameter: `some base` is a successful 4096-byte reservation
at address `base`, `none` a failed one.  Sizes of the Rust `FreeNode` type
(`next: Option<NonNull<FreeNode>>`) are those of the 64-bit target:
`size_of::<FreeNode>() = 8` and `align_of::<FreeNode>() = 8` (niche
optimisation makes `Option<NonNull<_>>` pointer-sized).
-/

/-- `SLAB_SIZE` from the source. -/
def SLAB_SIZE : Nat := 4096

/-- `MAX_OBJECT_SIZE` from the source. -/
def MAX_OBJECT_SIZE : Nat := 512

/-- `mem::size_of::<FreeNode>()` on the 64-bit target. -/
def FREE_NODE_SIZE : Nat := 8

/-- `mem::align_of::<FreeNode>()` on the 64-bit target. -/
def FREE_NODE_ALIGN : Nat := 8

/-- Rust `usize::next_multiple_of`: the smallest multiple of `m` that is
`≥ n` (for `m > 0`). -/
def nextMultipleOf (n m : Nat) : Nat := ((n + m - 1) / m) * m

/-- The `Slab` struct: `memory` is the base address of the 4096-byte block,
`free_list` the chain of free-slot addresses in chain order. -/
structure Slab where
  memory : Nat
  free_list : List Nat
  object_size : Nat
  capacity : Nat
  allocated : Nat
deriving Repr, DecidableEq

namespace Slab

/-- `Slab::align_size`: `size.max(node_size).next_multiple_of(align)` with
`align = align_of::<FreeNode>().max(8)` and `node_size = size_of::<FreeNode>()`. -/
def align_size (size : Nat) : Nat :=
  nextMultipleOf (max size FREE_NODE_SIZE) (max FREE_NODE_ALIGN 8)

/-- `Slab::init_free_list`: visits slot indices from `capacity−1` down to
`0`, prepending each slot address to the chain built so far. -/
def init_free_list (s : Slab) : Slab :=
  { s with free_list :=
      ((List.range s.capacity).reverse.foldl
        (fun prev i => (s.memory + i * s.object_size) :: prev) []) }

/-- `Slab::new`: rejects `object_size = 0` and `object_size > 512`, computes
the aligned slot size and the capacity, fails when the capacity is zero or
when the raw reservation (`mem`) fails, then initialises the free list. -/
def new (object_size : Nat) (mem : Option Nat) : Option Slab :=
  if object_size = 0 ∨ object_size > MAX_OBJECT_SIZE then none
  else
    let aligned_size := align_size object_size
    let capacity := SLAB_SIZE / aligned_size
    if capacity = 0 then none
    else
      match mem with
      | none => none
      | some base =>
          some (init_free_list
            { memory := base
              free_list := []
              object_size := aligned_size
              capacity := capacity
              allocated := 0 })

/-- `Slab::allocate`: pops the head of the free list and increments
`allocated`; fails when the free list is empty. -/
def allocate (s : Slab) : Option (Nat × Slab) :=
  match s.free_list with
  | [] => none
  | node :: rest =>
      some (node, { s with free_list := rest, allocated := s.allocated + 1 })

/-- `Slab::deallocate`: pushes the slot back onto the head of the free list
and decrements `allocated` with `saturating_sub` (Nat subtraction). -/
def deallocate (s : Slab) (ptr : Nat) : Slab :=
  { s with free_list := ptr :: s.free_list,
           allocated := s.allocated - 1 }

/-- `Slab::is_full`. -/
def is_full (s : Slab) : Bool := s.allocated == s.capacity

/-- `Slab::is_empty`. -/
def is_empty (s : Slab) : Bool := s.allocated == 0

/-- `Slab::contains`: the address lies in `[memory, memory + SLAB_SIZE)`. -/
def contains (s : Slab) (ptr : Nat) : Bool :=
  decide (s.memory ≤ ptr ∧ ptr < s.memory + SLAB_SIZE)

/-- Repeated allocation, collecting the returned addresses in order and
stopping early if an allocation fails. -/
def allocMany : Slab → Nat → List Nat × Slab
  | s, 0 => ([], s)
  | s, n + 1 =>
      match s.allocate with
      | none => ([], s)
      | some (p, s1) =>
          let r := s1.allocMany n
          (p :: r.1, r.2)

end Slab

/-- The `SlabAllocator` struct: a fixed sequence of 16 optional slabs (the
array `[Option<Slab>; 16]`) sharing one object size. -/
structure SlabAllocator where
  slabs : List (Option Slab)
  object_size : Nat
deriving Repr, DecidableEq

namespace SlabAllocator

/-- `SlabAllocator::new`: 16 empty slots. -/
def new (object_size : Nat) : SlabAllocator :=
  { slabs := List.replicate 16 none, object_size := object_size }

/-- First loop of `SlabAllocator::allocate`: scan existing slabs in slot
order, use the first non-full slab whose `allocate` succeeds; the list is
returned unchanged past the serviced slot. -/
def passOne : List (Option Slab) → Option Nat × List (Option Slab)
  | [] => (none, [])
  | none :: rest =>
      let r := passOne rest
      (r.1, none :: r.2)
  | some s :: rest =>
      if s.is_full then
        let r := passOne rest
        (r.1, some s :: r.2)
      else
        match s.allocate with
        | some (p, s1) => (some p, some s1 :: rest)
        | none =>
            let r := passOne rest
            (r.1, some s :: r.2)

/-- Second loop of `SlabAllocator::allocate`: find an empty slot, construct
a new slab there and return its first allocation (the Rust code returns
`slab.allocate()` directly once construction in a slot succeeds). -/
def passTwo (object_size : Nat) (mem : Option Nat) :
    List (Option Slab) → Option Nat × List (Option Slab)
  | [] => (none, [])
  | some s :: rest =>
      let r := passTwo object_size mem rest
      (r.1, some s :: r.2)
  | none :: rest =>
      match Slab.new object_size mem with
      | none =>
          let r := passTwo object_size mem rest
          (r.1, none :: r.2)
      | some slab =>
          match slab.allocate with
          | none => (none, some slab :: rest)
          | some (p, s1) => (some p, some s1 :: rest)

/-- `SlabAllocator::allocate`: pass 1 over the slots, then pass 2; `mem` is
the raw reservation a new slab construction would receive. -/
def allocate (a : SlabAllocator) (mem : Option Nat) :
    Option Nat × SlabAllocator :=
  match passOne a.slabs with
  | (some p, l) => (some p, { a with slabs := l })
  | (none, l) =>
      let r := passTwo a.object_size mem l
      (r.1, { a with slabs := r.2 })

/-- Loop of `SlabAllocator::deallocate`: route the pointer to the first slab
whose `contains` is true; if none claims it, the list is unchanged. -/
def deallocateSlabs (p : Nat) : List (Option Slab) → List (Option Slab)
  | [] => []
  | none :: rest => none :: deallocateSlabs p rest
  | some s :: rest =>
      if s.contains p then some (s.deallocate p) :: rest
      else some s :: deallocateSlabs p rest

/-- `SlabAllocator::deallocate`. -/
def deallocate (a : SlabAllocator) (p : Nat) : SlabAllocator :=
  { a with slabs := deallocateSlabs p a.slabs }

end SlabAllocator

/-- `core::alloc::Layout`: only the fields the code reads. -/
structure Layout where
  size : Nat
  align : Nat
deriving Repr, DecidableEq

/-- The `SlabCache` struct: three allocators for the size classes 64, 256
and 512. -/
structure SlabCache where
  small : SlabAllocator
  medium : SlabAllocator
  large : SlabAllocator
deriving Repr, DecidableEq

namespace SlabCache

/-- `SlabCache::new`. -/
def new : SlabCache :=
  { small := SlabAllocator.new 64
    medium := SlabAllocator.new 256
    large := SlabAllocator.new 512 }

/-- `SlabCache::allocate`: route by `layout.size` alone. -/
def allocate (c : SlabCache) (layout : Layout) (mem : Option Nat) :
    Option Nat × SlabCache :=
  let size := layout.size
  if size ≤ 64 then
    let r := c.small.allocate mem
    (r.1, { c with small := r.2 })
  else if size ≤ 256 then
    let r := c.medium.allocate mem
    (r.1, { c with medium := r.2 })
  else if size ≤ 512 then
    let r := c.large.allocate mem
    (r.1, { c with large := r.2 })
  else (none, c)

/-- `SlabCache::deallocate`: re-derive the size class from the layout passed
at this call. -/
def deallocate (c : SlabCache) (ptr : Nat) (layout : Layout) : SlabCache :=
  let size := layout.size
  if size ≤ 64 then { c with small := c.small.deallocate ptr }
  else if size ≤ 256 then { c with medium := c.medium.deallocate ptr }
  else if size ≤ 512 then { c with large := c.large.deallocate ptr }
  else c

end SlabCache

/-- `GlobalSlabAllocator::alloc`: forwards the layout straight to the
underlying raw provider (`alloc::alloc::alloc`), modelled as an arbitrary
function `rawAlloc`. -/
def GlobalSlabAllocator.alloc {α : Type} (rawAlloc : Layout → α)
    (layout : Layout) : α :=
  rawAlloc layout

/-- `GlobalSlabAllocator::dealloc`: forwards pointer and layout straight to
the underlying raw provider (`alloc::alloc::dealloc`). -/
def GlobalSlabAllocator.dealloc {α : Type} (rawDealloc : Nat → Layout → α)
    (ptr : Nat) (layout : Layout) : α :=
  rawDealloc ptr layout
/-- The slab invariant of the spec: `allocated + length free_list = capacity`
(equivalently `allocated = capacity − length free_list` with
`allocated ≤ capacity`). -/
def Slab.inv (s : Slab) : Prop :=
  s.allocated + s.free_list.length = s.capacity

instance slabInvDecidable (s : Slab) : Decidable (Slab.inv s) :=
  inferInstanceAs (Decidable (s.allocated + s.free_list.length = s.capacity))
/-- Concrete slab used to instantiate hypotheses of the universally
quantified theorems: the result of `Slab.new 512 (some 4096)`. -/
def slabW : Slab :=
  ⟨4096, [4096, 4608, 5120, 5632, 6144, 6656, 7168, 7680], 512, 8, 0⟩
/-- The slab produced by allocating once from `slabW`. -/
def slabW1 : Slab :=
  ⟨4096, [4608, 5120, 5632, 6144, 6656, 7168, 7680], 512, 8, 1⟩
/-- A slab with every slot handed out (`allocated = capacity`, empty free
list). -/
def slabFull : Slab := ⟨4096, [], 512, 8, 8⟩

/-- Allocator whose only slab (slot 0) is full; slots 1–15 empty. -/
def allocFullW : SlabAllocator :=
  { slabs := some slabFull :: List.replicate 15 none, object_size := 512 }

/-- Allocator with all 16 slots holding full slabs. -/
def allocAllFullW : SlabAllocator :=
  { slabs := List.replicate 16 (some slabFull), object_size := 512 }
/-- A 16-slot allocator holding one slab (`slabW1`) in slot 0, used as a
concrete instance for witnesses. -/
def allocW : SlabAllocator :=
  { slabs := some slabW1 :: List.replicate 15 none, object_size := 512 }
/-- All addresses in a slab's free list are 8-byte aligned. -/
def Slab.freeAligned (s : Slab) : Prop := ∀ q ∈ s.free_list, q % 8 = 0

instance slabFreeAlignedDecidable (s : Slab) : Decidable (Slab.freeAligned s) :=
  inferInstanceAs (Decidable (∀ q ∈ s.free_list, q % 8 = 0))

section InitLemmas

lemma foldl_cons_reverse (f : Nat → Nat) :
    ∀ (l : List Nat) (acc : List Nat),
      l.reverse.foldl (fun prev i => f i :: prev) acc = l.map f ++ acc := by
  intro l
  induction l with
  | nil => intro acc; rfl
  | cons a t ih =>
      intro acc
      simp only [List.reverse_cons, List.foldl_append, List.foldl_cons,
        List.foldl_nil, List.map_cons]
      rw [ih]
      simp

/-- The free list of a freshly initialised slab is the ascending sequence of
slot addresses. -/
lemma init_free_list_eq (s : Slab) :
    s.init_free_list =
      { s with free_list :=
          (List.range s.capacity).map (fun i => s.memory + i * s.object_size) } := by
  unfold Slab.init_free_list
  rw [foldl_cons_reverse]
  simp

/-- Concrete form of `align_size` on the 64-bit target. -/
lemma align_size_eq (size : Nat) :
    Slab.align_size size = ((max size 8 + 7) / 8) * 8 := by
  unfold Slab.align_size nextMultipleOf FREE_NODE_SIZE FREE_NODE_ALIGN
  norm_num

lemma align_size_ge_8 (size : Nat) : 8 ≤ Slab.align_size size := by
  rw [align_size_eq]; omega

lemma align_size_le_512 (size : Nat) (h : size ≤ 512) :
    Slab.align_size size ≤ 512 := by
  rw [align_size_eq]; omega

lemma SLAB_SIZE_eq : SLAB_SIZE = 4096 := rfl

lemma MAX_OBJECT_SIZE_eq : MAX_OBJECT_SIZE = 512 := rfl

lemma align_size_dvd_8 (size : Nat) : 8 ∣ Slab.align_size size := by
  rw [align_size_eq]; exact dvd_mul_left 8 _

lemma align_size_ge (size : Nat) : size ≤ Slab.align_size size := by
  rw [align_size_eq]; omega

lemma capacity_ge_8 (object_size : Nat) (h512 : object_size ≤ MAX_OBJECT_SIZE) :
    8 ≤ SLAB_SIZE / Slab.align_size object_size := by
  rw [MAX_OBJECT_SIZE_eq] at h512
  have hle : Slab.align_size object_size ≤ 512 := align_size_le_512 _ h512
  calc 8 = 4096 / 512 := by norm_num
    _ ≤ SLAB_SIZE / Slab.align_size object_size := by
        unfold SLAB_SIZE
        exact Nat.div_le_div_left hle (by have := align_size_ge_8 object_size; omega)

lemma new_eq_some (object_size : Nat) (base : Nat)
    (h0 : 0 < object_size) (h512 : object_size ≤ MAX_OBJECT_SIZE) :
    Slab.new object_size (some base) =
      some { memory := base
             free_list := ((List.range (SLAB_SIZE / Slab.align_size object_size)).map
               (fun i => base + i * Slab.align_size object_size))
             object_size := Slab.align_size object_size
             capacity := SLAB_SIZE / Slab.align_size object_size
             allocated := 0 } := by
  have hne : ¬ (object_size = 0 ∨ object_size > MAX_OBJECT_SIZE) := by
    rw [MAX_OBJECT_SIZE_eq] at h512 ⊢; omega
  have hcap : SLAB_SIZE / Slab.align_size object_size ≠ 0 := by
    have := capacity_ge_8 object_size h512
    omega
  unfold Slab.new
  rw [if_neg hne, if_neg hcap]
  show some (Slab.init_free_list _) = _
  rw [init_free_list_eq]

lemma new_none_cases (os : Nat) (mem : Option Nat)
    (h : os = 0 ∨ os > MAX_OBJECT_SIZE ∨ mem = none) :
    Slab.new os mem = none := by
  unfold Slab.new
  rcases h with h | h | h
  · rw [if_pos (Or.inl h)]
  · rw [if_pos (Or.inr h)]
  · subst h
    split
    · rfl
    · simp

/-- Construction succeeds exactly for sizes in `(0, 512]` with a successful
reservation. -/
lemma new_isSome_iff (os : Nat) (mem : Option Nat) :
    (Slab.new os mem).isSome ↔ 0 < os ∧ os ≤ MAX_OBJECT_SIZE ∧ mem.isSome := by
  constructor
  · intro h
    by_contra hc
    push_neg at hc
    have : Slab.new os mem = none := by
      apply new_none_cases
      rcases Nat.eq_zero_or_pos os with h0 | h0
      · exact Or.inl h0
      · by_cases h512 : os ≤ MAX_OBJECT_SIZE
        · refine Or.inr (Or.inr ?_)
          have := hc h0 h512
          cases mem
          · rfl
          · simp [Option.isSome] at this
        · exact Or.inr (Or.inl (by omega))
    rw [this] at h
    simp [Option.isSome] at h
  · rintro ⟨h0, h512, hm⟩
    cases mem with
    | none => simp [Option.isSome] at hm
    | some base =>
        rw [new_eq_some os base h0 h512]
        rfl

end InitLemmas

section AllocManyLemmas

/-- Repeated allocation pops the free list front to back. -/
lemma allocMany_spec (n : Nat) :
    ∀ s : Slab, n ≤ s.free_list.length →
      s.allocMany n =
        (s.free_list.take n,
         { s with free_list := s.free_list.drop n,
                  allocated := s.allocated + n }) := by
  induction n with
  | zero =>
      intro s _
      simp [Slab.allocMany]
  | succ n ih =>
      intro s h
      match hfl : s.free_list with
      | [] => rw [hfl] at h; simp at h
      | p :: rest =>
          have halloc : s.allocate =
              some (p, { s with free_list := rest, allocated := s.allocated + 1 }) := by
            unfold Slab.allocate
            rw [hfl]
          have hlen : n ≤ rest.length := by
            rw [hfl] at h
            simpa using Nat.lt_succ_iff.mp (Nat.lt_of_lt_of_le (Nat.lt_succ_self n) h)
          unfold Slab.allocMany
          rw [halloc]
          simp only
          rw [ih _ (by simpa using hlen)]
          simp [hfl, Slab.mk.injEq, Prod.mk.injEq]
          all_goals omega

/-- A slab built by `new` has a free list of length `capacity`, listing the
slot addresses in ascending order. -/
lemma new_free_list (object_size base : Nat) (s : Slab)
    (h : Slab.new object_size (some base) = some s) :
    s.free_list = (List.range s.capacity).map (fun i => base + i * s.object_size)
      ∧ s.memory = base
      ∧ s.object_size = Slab.align_size object_size
      ∧ s.capacity = SLAB_SIZE / Slab.align_size object_size
      ∧ s.allocated = 0 := by
  have hv := (new_isSome_iff object_size (some base)).mp (by rw [h]; rfl)
  rw [new_eq_some object_size base hv.1 hv.2.1] at h
  have := Option.some.injEq _ _ ▸ h
  cases h
  simp

end AllocManyLemmas

/-- C1: allocating repeatedly from a freshly constructed slab returns
exactly `capacity` addresses, namely the ascending sequence
`base + i * aligned_size` for `i = 0, …, capacity − 1` (hence distinct,
non-overlapping, consecutive addresses exactly `aligned_size` apart), the
free-list head after construction is slot 0 (= `base`), and the allocation
after the `capacity`-th one fails. -/
theorem slab_fresh_allocation_order (object_size base : Nat) (s : Slab)
    (h : Slab.new object_size (some base) = some s) :
    (s.allocMany s.capacity).1 =
        (List.range s.capacity).map (fun i => base + i * s.object_size)
      ∧ s.object_size = Slab.align_size object_size
      ∧ List.Pairwise (· < ·) (s.allocMany s.capacity).1
      ∧ (s.allocMany s.capacity).2.allocate = none
      ∧ s.free_list.head? = some base := by
  obtain ⟨hfl, hmem, hos, hcap, hall⟩ := new_free_list object_size base s h
  have hv := (new_isSome_iff object_size (some base)).mp (by rw [h]; rfl)
  have hlen : s.free_list.length = s.capacity := by rw [hfl]; simp
  have hspec := allocMany_spec s.capacity s (by rw [hlen])
  have h8 : 8 ≤ s.object_size := hos ▸ align_size_ge_8 object_size
  have hfirst : (s.allocMany s.capacity).1 = s.free_list := by
    rw [hspec, ← hlen, List.take_length]
  refine ⟨?_, hos, ?_, ?_, ?_⟩
  · rw [hfirst, hfl]
  · rw [hfirst, hfl, List.pairwise_map]
    apply (List.pairwise_lt_range s.capacity).imp
    intro a b hab
    have hmul : a * s.object_size < b * s.object_size :=
      Nat.mul_lt_mul_of_lt_of_le hab (le_refl _) (by omega)
    omega
  · rw [hspec]
    unfold Slab.allocate
    simp [← hlen]
  · have hpos : 0 < s.capacity := by
      have := capacity_ge_8 object_size hv.2.1
      omega
    obtain ⟨c, hc⟩ := Nat.exists_eq_add_of_lt hpos
    rw [hfl, hc]
    rw [show 0 + c + 1 = c + 1 by omega, List.range_succ_eq_map]
    simp

/-- Witness for C1 at `object_size = 512`, `base = 4096`. -/
theorem slab_fresh_allocation_order_witness :
    Slab.new 512 (some 4096) = some slabW
      ∧ ((slabW.allocMany slabW.capacity).1 =
            (List.range slabW.capacity).map (fun i => 4096 + i * slabW.object_size)
          ∧ slabW.object_size = Slab.align_size 512
          ∧ List.Pairwise (· < ·) (slabW.allocMany slabW.capacity).1
          ∧ (slabW.allocMany slabW.capacity).2.allocate = none
          ∧ slabW.free_list.head? = some 4096) :=
  ⟨by decide, slab_fresh_allocation_order 512 4096 slabW (by decide)⟩

/-- C2: for every slab state, deallocating a pointer `p` and then allocating
returns exactly `p` again (LIFO reuse), and `deallocate` decrements
`allocated`, saturating at zero.  The caller contract (`p` was previously
returned by this slab's `allocate` and not yet freed) is not needed for the
LIFO property in the model, so the theorem is stated for all `p`. -/
theorem slab_dealloc_then_alloc_lifo (s : Slab) (p : Nat) :
    ((s.deallocate p).allocate).map Prod.fst = some p
      ∧ (s.deallocate p).allocated = s.allocated - 1
      ∧ (s.allocated = 0 → (s.deallocate p).allocated = 0) := by
  unfold Slab.deallocate Slab.allocate
  refine ⟨rfl, rfl, ?_⟩
  intro h
  simp [h]

/-- Witness for C2 at the concrete slab `slabW` and pointer `4096`. -/
theorem slab_dealloc_then_alloc_lifo_witness :
    ((slabW.deallocate 4096).allocate).map Prod.fst = some 4096
      ∧ (slabW.deallocate 4096).allocated = slabW.allocated - 1
      ∧ (slabW.allocated = 0 → (slabW.deallocate 4096).allocated = 0) :=
  slab_dealloc_then_alloc_lifo slabW 4096

/-- C3: `Slab::new` fails exactly when the requested size is `0`, exceeds
`512`, or the 4096-byte reservation fails; for sizes in `(0, 512]` with a
successful reservation it succeeds with
`aligned_size = round_up(max(requested_size, size_of_free_node), max(8,
align_of_free_node))`, `capacity = 4096 / aligned_size ≥ 1`, and
`capacity × aligned_size ≤ 4096`. -/
theorem slab_new_success_conditions (size : Nat) (mem : Option Nat) (base : Nat) :
    ((Slab.new size mem).isSome ↔ 0 < size ∧ size ≤ 512 ∧ mem.isSome)
      ∧ (0 < size → size ≤ 512 →
          (Slab.new size (some base)).map Slab.object_size = some (Slab.align_size size)
            ∧ (Slab.new size (some base)).map Slab.capacity
                = some (SLAB_SIZE / Slab.align_size size)
            ∧ 1 ≤ SLAB_SIZE / Slab.align_size size
            ∧ (SLAB_SIZE / Slab.align_size size) * Slab.align_size size ≤ SLAB_SIZE) := by
  constructor
  · rw [new_isSome_iff, MAX_OBJECT_SIZE_eq]
  · intro h0 h512
    have h512m : size ≤ MAX_OBJECT_SIZE := by rw [MAX_OBJECT_SIZE_eq]; exact h512
    rw [new_eq_some size base h0 h512m]
    refine ⟨rfl, rfl, ?_, Nat.div_mul_le_self _ _⟩
    have := capacity_ge_8 size h512m
    omega

/-- Witness for C3 at `size = 64`, reservation at base `4096`. -/
theorem slab_new_success_conditions_witness :
    (Slab.new 64 (some 4096)).map Slab.object_size = some (Slab.align_size 64)
      ∧ (Slab.new 64 (some 4096)).map Slab.capacity
          = some (SLAB_SIZE / Slab.align_size 64)
      ∧ 1 ≤ SLAB_SIZE / Slab.align_size 64
      ∧ (SLAB_SIZE / Slab.align_size 64) * Slab.align_size 64 ≤ SLAB_SIZE :=
  (slab_new_success_conditions 64 (some 4096) 4096).2 (by decide) (by decide)

/-- C6: the invariant `0 ≤ allocated ≤ capacity` and
`allocated = capacity − length free_list` holds after construction and is
preserved by `allocate` and by any `deallocate` respecting the caller
contract (modelled by its consequence `0 < allocated`: some slot is
outstanding). -/
theorem slab_invariant_preserved (os : Nat) (mem : Option Nat) (s s1 : Slab)
    (p q : Nat) :
    (Slab.new os mem = some s → Slab.inv s)
      ∧ (Slab.inv s → s.allocated ≤ s.capacity)
      ∧ (Slab.inv s → s.allocate = some (q, s1) → Slab.inv s1)
      ∧ (Slab.inv s → 0 < s.allocated → Slab.inv (s.deallocate p)) := by
  refine ⟨?_, ?_, ?_, ?_⟩
  · intro h
    cases mem with
    | none => rw [new_none_cases os none (Or.inr (Or.inr rfl))] at h; cases h
    | some base =>
        obtain ⟨hfl, _, _, hcap, hall⟩ := new_free_list os base s h
        unfold Slab.inv
        rw [hall, hfl]
        simp
  · intro h
    unfold Slab.inv at h
    omega
  · intro h ha
    unfold Slab.allocate at ha
    match hfl : s.free_list with
    | [] => rw [hfl] at ha; cases ha
    | a :: rest =>
        rw [hfl] at ha
        simp only [Option.some.injEq, Prod.mk.injEq] at ha
        obtain ⟨_, hs1⟩ := ha
        unfold Slab.inv at h ⊢
        rw [← hs1]
        rw [hfl] at h
        simp at h ⊢
        omega
  · intro h hpos
    unfold Slab.inv at h ⊢
    unfold Slab.deallocate
    simp
    omega

/-- Witness for C6: the invariant holds for the freshly constructed `slabW`,
and is preserved across one allocation (`slabW1`) and one deallocation. -/
theorem slab_invariant_preserved_witness :
    Slab.inv slabW
      ∧ slabW.allocated ≤ slabW.capacity
      ∧ Slab.inv slabW1
      ∧ Slab.inv (slabW1.deallocate 4096) :=
  ⟨(slab_invariant_preserved 512 (some 4096) slabW slabW1 4096 4096).1 (by decide),
   (slab_invariant_preserved 512 (some 4096) slabW slabW1 4096 4096).2.1 (by decide),
   (slab_invariant_preserved 512 (some 4096) slabW slabW1 4096 4096).2.2.1
     (by decide) (by decide),
   (slab_invariant_preserved 512 (some 4096) slabW1 slabW1 4096 4096).2.2.2
     (by decide) (by decide)⟩

section DeallocateLemmas

lemma deallocateSlabs_no_contain (p : Nat) :
    ∀ l : List (Option Slab),
      (∀ t : Slab, some t ∈ l → t.contains p = false) →
      SlabAllocator.deallocateSlabs p l = l := by
  intro l
  induction l with
  | nil => intro _; rfl
  | cons x rest ih =>
      intro h
      cases x with
      | none =>
          unfold SlabAllocator.deallocateSlabs
          rw [ih (fun t ht => h t (List.mem_cons_of_mem _ ht))]
      | some s =>
          have hs : s.contains p = false := h s (List.mem_cons_self _ _)
          unfold SlabAllocator.deallocateSlabs
          rw [if_neg (by rw [hs]; exact Bool.false_ne_true)]
          rw [ih (fun t ht => h t (List.mem_cons_of_mem _ ht))]

lemma deallocateSlabs_first (p : Nat) :
    ∀ (l : List (Option Slab)) (i : Nat) (s : Slab),
      l[i]? = some (some s) → s.contains p = true →
      (∀ j, j < i → ∀ t : Slab, l[j]? = some (some t) → t.contains p = false) →
      SlabAllocator.deallocateSlabs p l = l.set i (some (s.deallocate p)) := by
  intro l
  induction l with
  | nil => intro i s h _ _; simp at h
  | cons x rest ih =>
      intro i s h hc hbefore
      cases i with
      | zero =>
          simp at h
          subst h
          unfold SlabAllocator.deallocateSlabs
          rw [if_pos hc]
          rfl
      | succ j =>
          have hx : ∀ t : Slab, x = some t → t.contains p = false := by
            intro t ht
            exact hbefore 0 (Nat.succ_pos j) t (by simp [ht])
          have hrest : SlabAllocator.deallocateSlabs p rest =
              rest.set j (some (s.deallocate p)) := by
            apply ih j s (by simpa using h) hc
            intro k hk t htk
            exact hbefore (k + 1) (Nat.succ_lt_succ hk) t (by simpa using htk)
          cases x with
          | none =>
              unfold SlabAllocator.deallocateSlabs
              rw [hrest]
              rfl
          | some t =>
              unfold SlabAllocator.deallocateSlabs
              rw [if_neg (by rw [hx t rfl]; exact Bool.false_ne_true)]
              rw [hrest]
              rfl

end DeallocateLemmas

/-- C7: `SlabAllocator::deallocate` forwards the pointer to the first slab
(in slot order) whose `contains` is true, where `contains p` holds exactly
when `memory ≤ p < memory + 4096`; when no slab contains the pointer the
call leaves the allocator unchanged and signals nothing. -/
theorem slaballocator_deallocate_routing (a : SlabAllocator) (p i : Nat)
    (s : Slab) :
    (s.contains p = true ↔ (s.memory ≤ p ∧ p < s.memory + 4096))
      ∧ ((∀ t : Slab, some t ∈ a.slabs → t.contains p = false) →
          a.deallocate p = a)
      ∧ (a.slabs[i]? = some (some s) → s.contains p = true →
          (∀ j, j < i → ∀ t : Slab, a.slabs[j]? = some (some t) →
            t.contains p = false) →
          (a.deallocate p).slabs = a.slabs.set i (some (s.deallocate p))) := by
  refine ⟨?_, ?_, ?_⟩
  · unfold Slab.contains
    rw [show s.memory + SLAB_SIZE = s.memory + 4096 from rfl]
    exact decide_eq_true_iff
  · intro h
    unfold SlabAllocator.deallocate
    rw [deallocateSlabs_no_contain p a.slabs h]
  · intro h hc hbefore
    unfold SlabAllocator.deallocate
    exact deallocateSlabs_first p a.slabs i s h hc hbefore

/-- Witness for C7: routing to slot 0 of `allocW` for a contained pointer,
and the no-op for a pointer outside every slab. -/
theorem slaballocator_deallocate_routing_witness :
    (slabW1.contains 4096 = true ↔ (slabW1.memory ≤ 4096 ∧ 4096 < slabW1.memory + 4096))
      ∧ (allocW.deallocate 4096).slabs
          = allocW.slabs.set 0 (some (slabW1.deallocate 4096))
      ∧ allocW.deallocate 99999 = allocW :=
  ⟨(slaballocator_deallocate_routing allocW 4096 0 slabW1).1,
   (slaballocator_deallocate_routing allocW 4096 0 slabW1).2.2
     (by decide) (by decide) (by intro j hj t ht; omega),
   (slaballocator_deallocate_routing allocW 99999 0 slabW1).2.1
     (by
       intro t ht
       simp only [allocW, List.mem_cons, List.mem_replicate] at ht
       rcases ht with ht | ht
       · cases ht
         decide
       · exact absurd ht.2 (by simp))⟩

section PassLemmas

lemma allocate_cons (s : Slab) (hd : Nat) (tl : List Nat)
    (hfl : s.free_list = hd :: tl) :
    s.allocate = some (hd, { s with free_list := tl, allocated := s.allocated + 1 }) := by
  unfold Slab.allocate
  rw [hfl]

lemma allocate_nil (s : Slab) (hfl : s.free_list = []) : s.allocate = none := by
  unfold Slab.allocate
  rw [hfl]

lemma passOne_cons_none (rest : List (Option Slab)) :
    SlabAllocator.passOne (none :: rest) =
      ((SlabAllocator.passOne rest).1, none :: (SlabAllocator.passOne rest).2) := rfl

lemma passOne_cons_full (s : Slab) (rest : List (Option Slab))
    (h : s.is_full = true) :
    SlabAllocator.passOne (some s :: rest) =
      ((SlabAllocator.passOne rest).1, some s :: (SlabAllocator.passOne rest).2) := by
  conv_lhs => unfold SlabAllocator.passOne
  rw [if_pos h]

lemma passOne_cons_avail (s : Slab) (rest : List (Option Slab)) (hd : Nat)
    (tl : List Nat) (h : s.is_full = false) (hfl : s.free_list = hd :: tl) :
    SlabAllocator.passOne (some s :: rest) =
      (some hd,
       some { s with free_list := tl, allocated := s.allocated + 1 } :: rest) := by
  conv_lhs => unfold SlabAllocator.passOne
  rw [if_neg (by rw [h]; exact Bool.false_ne_true), allocate_cons s hd tl hfl]

lemma passOne_cons_nonfull_nil (s : Slab) (rest : List (Option Slab))
    (h : s.is_full = false) (hfl : s.free_list = []) :
    SlabAllocator.passOne (some s :: rest) =
      ((SlabAllocator.passOne rest).1, some s :: (SlabAllocator.passOne rest).2) := by
  conv_lhs => unfold SlabAllocator.passOne
  rw [if_neg (by rw [h]; exact Bool.false_ne_true), allocate_nil s hfl]

lemma passTwo_cons_some (os : Nat) (mem : Option Nat) (s : Slab)
    (rest : List (Option Slab)) :
    SlabAllocator.passTwo os mem (some s :: rest) =
      ((SlabAllocator.passTwo os mem rest).1,
       some s :: (SlabAllocator.passTwo os mem rest).2) := rfl

lemma passTwo_cons_none_fail (os : Nat) (mem : Option Nat)
    (rest : List (Option Slab)) (h : Slab.new os mem = none) :
    SlabAllocator.passTwo os mem (none :: rest) =
      ((SlabAllocator.passTwo os mem rest).1,
       none :: (SlabAllocator.passTwo os mem rest).2) := by
  conv_lhs => unfold SlabAllocator.passTwo
  rw [h]

lemma passTwo_cons_none_new (os : Nat) (mem : Option Nat)
    (rest : List (Option Slab)) (slab s1 : Slab) (p : Nat)
    (hnew : Slab.new os mem = some slab)
    (halloc : slab.allocate = some (p, s1)) :
    SlabAllocator.passTwo os mem (none :: rest) = (some p, some s1 :: rest) := by
  conv_lhs => unfold SlabAllocator.passTwo
  rw [hnew]
  dsimp only
  rw [halloc]

lemma inv_not_full_free_ne (s : Slab) (hinv : Slab.inv s)
    (h : s.is_full = false) : s.free_list ≠ [] := by
  unfold Slab.inv at hinv
  unfold Slab.is_full at h
  simp at h
  intro hfl
  rw [hfl] at hinv
  simp at hinv
  exact h hinv

lemma passOne_all_full :
    ∀ l : List (Option Slab),
      (∀ t : Slab, some t ∈ l → t.is_full = true) →
      SlabAllocator.passOne l = (none, l) := by
  intro l
  induction l with
  | nil => intro _; rfl
  | cons x rest ih =>
      intro h
      have hrest := ih (fun t ht => h t (List.mem_cons_of_mem _ ht))
      cases x with
      | none => rw [passOne_cons_none, hrest]
      | some s =>
          rw [passOne_cons_full s rest (h s (List.mem_cons_self _ _)), hrest]

lemma passOne_first_nonfull :
    ∀ (l : List (Option Slab)) (i : Nat) (s : Slab),
      l[i]? = some (some s) → s.is_full = false → s.free_list ≠ [] →
      (∀ j, j < i → ∀ t : Slab, l[j]? = some (some t) → t.is_full = true) →
      (SlabAllocator.passOne l).1 = s.free_list.head? := by
  intro l
  induction l with
  | nil => intro i s h _ _ _; simp at h
  | cons x rest ih =>
      intro i s h hnf hne hbefore
      cases i with
      | zero =>
          simp at h
          subst h
          match hfl : s.free_list with
          | [] => exact absurd hfl hne
          | hd :: tl =>
              rw [passOne_cons_avail s rest hd tl hnf hfl]
              rfl
      | succ j =>
          have hrest : (SlabAllocator.passOne rest).1 = s.free_list.head? := by
            apply ih j s (by simpa using h) hnf hne
            intro k hk t htk
            exact hbefore (k + 1) (Nat.succ_lt_succ hk) t (by simpa using htk)
          cases x with
          | none => rw [passOne_cons_none]; exact hrest
          | some t =>
              have ht : t.is_full = true :=
                hbefore 0 (Nat.succ_pos j) t (by simp)
              rw [passOne_cons_full t rest ht]
              exact hrest

lemma passOne_success_of_nonfull :
    ∀ l : List (Option Slab),
      (∃ s : Slab, some s ∈ l ∧ s.is_full = false ∧ s.free_list ≠ []) →
      ((SlabAllocator.passOne l).1).isSome := by
  intro l
  induction l with
  | nil => rintro ⟨s, hmem, _, _⟩; simp at hmem
  | cons x rest ih =>
      rintro ⟨s, hmem, hnf, hne⟩
      rw [List.mem_cons] at hmem
      rcases hmem with hx | hmem
      · match hfl : s.free_list with
        | [] => exact absurd hfl hne
        | hd :: tl =>
            rw [← hx, passOne_cons_avail s rest hd tl hnf hfl]
            rfl
      · have hrest := ih ⟨s, hmem, hnf, hne⟩
        cases x with
        | none => rw [passOne_cons_none]; exact hrest
        | some t =>
            by_cases htf : t.is_full = true
            · rw [passOne_cons_full t rest htf]; exact hrest
            · rw [Bool.not_eq_true] at htf
              match hta : t.free_list with
              | [] =>
                  rw [passOne_cons_nonfull_nil t rest htf hta]
                  exact hrest
              | hd :: tl =>
                  rw [passOne_cons_avail t rest hd tl htf hta]
                  rfl

lemma passTwo_none_of_new_none (os : Nat) (mem : Option Nat)
    (h : Slab.new os mem = none) :
    ∀ l : List (Option Slab), SlabAllocator.passTwo os mem l = (none, l) := by
  intro l
  induction l with
  | nil => rfl
  | cons x rest ih =>
      cases x with
      | none => rw [passTwo_cons_none_fail os mem rest h, ih]
      | some s => rw [passTwo_cons_some, ih]

lemma passTwo_none_of_no_empty (os : Nat) (mem : Option Nat) :
    ∀ l : List (Option Slab), ¬ (none ∈ l) →
      SlabAllocator.passTwo os mem l = (none, l) := by
  intro l
  induction l with
  | nil => intro _; rfl
  | cons x rest ih =>
      intro h
      cases x with
      | none => exact absurd (List.mem_cons_self _ _) h
      | some s =>
          rw [passTwo_cons_some, ih (fun hm => h (List.mem_cons_of_mem _ hm))]

lemma new_allocate_base (os base : Nat) (slab : Slab)
    (h : Slab.new os (some base) = some slab) :
    ∃ s1 : Slab, slab.allocate = some (base, s1) := by
  obtain ⟨hfl, hmem, hos, hcap, hall⟩ := new_free_list os base slab h
  have hv := (new_isSome_iff os (some base)).mp (by rw [h]; rfl)
  have hpos : 0 < slab.capacity := by
    have := capacity_ge_8 os hv.2.1
    omega
  obtain ⟨c, hc⟩ := Nat.exists_eq_add_of_lt hpos
  rw [show 0 + c + 1 = c + 1 by omega] at hc
  rw [hc, List.range_succ_eq_map, List.map_cons] at hfl
  rw [show base + 0 * slab.object_size = base by simp] at hfl
  exact ⟨_, allocate_cons slab base _ hfl⟩

lemma passTwo_first_empty (os base : Nat)
    (h0 : 0 < os) (h512 : os ≤ MAX_OBJECT_SIZE) :
    ∀ (l : List (Option Slab)) (i : Nat),
      l[i]? = some none → (∀ j, j < i → l[j]? ≠ some none) →
      (SlabAllocator.passTwo os (some base) l).1 = some base := by
  have hnew : (Slab.new os (some base)).isSome :=
    (new_isSome_iff os (some base)).mpr ⟨h0, h512, rfl⟩
  obtain ⟨slab, hslab⟩ := Option.isSome_iff_exists.mp hnew
  obtain ⟨s1, halloc⟩ := new_allocate_base os base slab hslab
  intro l
  induction l with
  | nil => intro i h _; simp at h
  | cons x rest ih =>
      intro i h hbefore
      cases i with
      | zero =>
          simp at h
          subst h
          rw [passTwo_cons_none_new os (some base) rest slab s1 base hslab halloc]
      | succ j =>
          cases x with
          | none => exact absurd (by simp) (hbefore 0 (Nat.succ_pos j))
          | some s =>
              rw [passTwo_cons_some]
              apply ih j (by simpa using h)
              intro k hk
              have := hbefore (k + 1) (Nat.succ_lt_succ hk)
              simpa using this

lemma passTwo_success_exists (os : Nat) (mem : Option Nat) (slab : Slab)
    (hnew : Slab.new os mem = some slab) :
    ∀ l : List (Option Slab), none ∈ l →
      ((SlabAllocator.passTwo os mem l).1).isSome := by
  have hv := (new_isSome_iff os mem).mp (by rw [hnew]; rfl)
  obtain ⟨base, hbase⟩ := Option.isSome_iff_exists.mp hv.2.2
  subst hbase
  obtain ⟨s1, halloc⟩ := new_allocate_base os base slab hnew
  intro l
  induction l with
  | nil => intro h; simp at h
  | cons x rest ih =>
      intro h
      cases x with
      | none =>
          rw [passTwo_cons_none_new os (some base) rest slab s1 base hnew halloc]
          rfl
      | some s =>
          have hmem : none ∈ rest := by
            rcases List.mem_cons.mp h with hh | hh
            · cases hh
            · exact hh
          rw [passTwo_cons_some]
          exact ih hmem

end PassLemmas

lemma allocate_eq_passOne_some (a : SlabAllocator) (mem : Option Nat) (p : Nat)
    (l : List (Option Slab)) (h : SlabAllocator.passOne a.slabs = (some p, l)) :
    a.allocate mem = (some p, { a with slabs := l }) := by
  unfold SlabAllocator.allocate
  rw [h]

lemma allocate_eq_passOne_none (a : SlabAllocator) (mem : Option Nat)
    (l : List (Option Slab)) (h : SlabAllocator.passOne a.slabs = (none, l)) :
    a.allocate mem =
      ((SlabAllocator.passTwo a.object_size mem l).1,
       { a with slabs := (SlabAllocator.passTwo a.object_size mem l).2 }) := by
  unfold SlabAllocator.allocate
  rw [h]

/-- C4: under the slab invariant, `SlabAllocator::allocate` is first-fit:
(i) if slot `i` holds the first non-full slab, the request is serviced from
it (the returned pointer is that slab's free-list head); (ii) whenever some
existing slab is non-full the call succeeds (no new slab is needed); (iii)
when all existing slabs are full, the request is serviced by a new slab
constructed in the first empty slot (the returned pointer is the fresh
reservation's base address); (iv) when all existing slabs are full the call
fails exactly when there is no empty slot (in particular when all 16 slots
hold full slabs — the hard ceiling) or the new-slab construction fails. -/
theorem slaballocator_allocate_first_fit (a : SlabAllocator) (mem : Option Nat)
    (i base : Nat) (s : Slab)
    (hwf : ∀ t : Slab, some t ∈ a.slabs → Slab.inv t) :
    (a.slabs[i]? = some (some s) → s.is_full = false →
        (∀ j, j < i → ∀ t : Slab, a.slabs[j]? = some (some t) →
          t.is_full = true) →
        (a.allocate mem).1 = s.free_list.head? ∧ (s.free_list.head?).isSome)
      ∧ ((∃ t : Slab, some t ∈ a.slabs ∧ t.is_full = false) →
          ((a.allocate mem).1).isSome)
      ∧ ((∀ t : Slab, some t ∈ a.slabs → t.is_full = true) →
          0 < a.object_size → a.object_size ≤ 512 →
          a.slabs[i]? = some none → (∀ j, j < i → a.slabs[j]? ≠ some none) →
          (a.allocate (some base)).1 = some base)
      ∧ ((∀ t : Slab, some t ∈ a.slabs → t.is_full = true) →
          ((a.allocate mem).1 = none ↔
            ((¬ none ∈ a.slabs) ∨ Slab.new a.object_size mem = none))) := by
  refine ⟨?_, ?_, ?_, ?_⟩
  · intro hi hnf hbefore
    have hinv := hwf s (List.getElem?_mem hi)
    have hne := inv_not_full_free_ne s hinv hnf
    have h1 := passOne_first_nonfull a.slabs i s hi hnf hne hbefore
    match hfl : s.free_list with
    | [] => exact absurd hfl hne
    | hd :: tl =>
        rw [hfl] at h1
        rcases hpo : SlabAllocator.passOne a.slabs with ⟨r1, l1⟩
        rw [hpo] at h1
        simp at h1
        subst h1
        rw [allocate_eq_passOne_some a mem hd l1 hpo]
        exact ⟨rfl, rfl⟩
  · rintro ⟨t, hmem, htnf⟩
    have hne := inv_not_full_free_ne t (hwf t hmem) htnf
    have h1 := passOne_success_of_nonfull a.slabs ⟨t, hmem, htnf, hne⟩
    rcases hpo : SlabAllocator.passOne a.slabs with ⟨r1, l1⟩
    rw [hpo] at h1
    match r1, h1 with
    | some p, _ =>
        rw [allocate_eq_passOne_some a mem p l1 hpo]
        rfl
  · intro hfull h0 h512 hi hbefore
    have hpo := passOne_all_full a.slabs hfull
    rw [allocate_eq_passOne_none a (some base) a.slabs hpo]
    exact passTwo_first_empty a.object_size base h0
      (by rw [MAX_OBJECT_SIZE_eq]; exact h512) a.slabs i hi hbefore
  · intro hfull
    have hpo := passOne_all_full a.slabs hfull
    rw [allocate_eq_passOne_none a mem a.slabs hpo]
    constructor
    · intro hn
      by_contra hc
      push_neg at hc
      obtain ⟨hmem, hnew⟩ := hc
      match hnn : Slab.new a.object_size mem with
      | none => exact hnew hnn
      | some slab =>
          have := passTwo_success_exists a.object_size mem slab hnn a.slabs hmem
          rw [hn] at this
          cases this
    · intro hor
      rcases hor with h | h
      · rw [passTwo_none_of_no_empty a.object_size mem a.slabs h]
      · rw [passTwo_none_of_new_none a.object_size mem h a.slabs]

/-- Witness for C4: service from the non-full slab of `allocW`; success with
a non-full slab present; pass-2 creation in the first empty slot of
`allocFullW`; failure for the fully occupied, fully full `allocAllFullW`. -/
theorem slaballocator_allocate_first_fit_witness :
    ((allocW.allocate none).1 = slabW1.free_list.head?
        ∧ (slabW1.free_list.head?).isSome)
      ∧ ((allocW.allocate none).1).isSome
      ∧ (allocFullW.allocate (some 8192)).1 = some 8192
      ∧ (allocAllFullW.allocate (some 8192)).1 = none := by
  have hwfW : ∀ t : Slab, some t ∈ allocW.slabs → Slab.inv t := by
    intro t ht
    simp only [allocW, List.mem_cons, List.mem_replicate] at ht
    rcases ht with ht | ht
    · cases ht; decide
    · exact absurd ht.2 (by simp)
  have hwfFull : ∀ t : Slab, some t ∈ allocFullW.slabs → Slab.inv t := by
    intro t ht
    simp only [allocFullW, List.mem_cons, List.mem_replicate] at ht
    rcases ht with ht | ht
    · cases ht; decide
    · exact absurd ht.2 (by simp)
  have hfullFull : ∀ t : Slab, some t ∈ allocFullW.slabs → t.is_full = true := by
    intro t ht
    simp only [allocFullW, List.mem_cons, List.mem_replicate] at ht
    rcases ht with ht | ht
    · cases ht; decide
    · exact absurd ht.2 (by simp)
  have hwfAll : ∀ t : Slab, some t ∈ allocAllFullW.slabs → Slab.inv t := by
    intro t ht
    simp only [allocAllFullW, List.mem_replicate] at ht
    cases ht.2; decide
  have hfullAll : ∀ t : Slab, some t ∈ allocAllFullW.slabs → t.is_full = true := by
    intro t ht
    simp only [allocAllFullW, List.mem_replicate] at ht
    cases ht.2; decide
  refine ⟨?_, ?_, ?_, ?_⟩
  · exact (slaballocator_allocate_first_fit allocW none 0 0 slabW1 hwfW).1
      (by decide) (by decide) (by intro j hj t ht; omega)
  · exact (slaballocator_allocate_first_fit allocW none 0 0 slabW1 hwfW).2.1
      ⟨slabW1, List.mem_cons_self _ _, by decide⟩
  · exact (slaballocator_allocate_first_fit allocFullW (some 8192) 1 8192
      slabFull hwfFull).2.2.1 hfullFull (by decide) (by decide) (by decide)
      (by intro j hj; rw [Nat.lt_one_iff] at hj; subst hj; decide)
  · exact ((slaballocator_allocate_first_fit allocAllFullW (some 8192) 0 8192
      slabFull hwfAll).2.2.2 hfullAll).mpr (Or.inl (by decide))

/-- C5: `SlabCache::allocate` routes by the requested size alone, ignoring
the requested alignment: `size ≤ 64` goes to the small allocator,
`64 < size ≤ 256` to the medium one, `256 < size ≤ 512` to the large one,
and any size above 512 fails unconditionally. -/
theorem slabcache_allocate_routing (c : SlabCache) (size a1 a2 : Nat)
    (mem : Option Nat) :
    c.allocate ⟨size, a1⟩ mem = c.allocate ⟨size, a2⟩ mem
      ∧ (size ≤ 64 →
          c.allocate ⟨size, a1⟩ mem =
            ((c.small.allocate mem).1,
             { c with small := (c.small.allocate mem).2 }))
      ∧ (64 < size → size ≤ 256 →
          c.allocate ⟨size, a1⟩ mem =
            ((c.medium.allocate mem).1,
             { c with medium := (c.medium.allocate mem).2 }))
      ∧ (256 < size → size ≤ 512 →
          c.allocate ⟨size, a1⟩ mem =
            ((c.large.allocate mem).1,
             { c with large := (c.large.allocate mem).2 }))
      ∧ (512 < size → c.allocate ⟨size, a1⟩ mem = (none, c)) := by
  refine ⟨rfl, ?_, ?_, ?_, ?_⟩
  · intro h
    unfold SlabCache.allocate
    dsimp only
    rw [if_pos h]
  · intro h1 h2
    unfold SlabCache.allocate
    dsimp only
    rw [if_neg (by omega), if_pos h2]
  · intro h1 h2
    unfold SlabCache.allocate
    dsimp only
    rw [if_neg (by omega), if_neg (by omega), if_pos h2]
  · intro h
    unfold SlabCache.allocate
    dsimp only
    rw [if_neg (by omega), if_neg (by omega), if_neg (by omega)]

/-- Witness for C5: a fresh cache with sizes 32 (two different alignments),
128, 400 and 1024. -/
theorem slabcache_allocate_routing_witness :
    SlabCache.new.allocate ⟨32, 8⟩ (some 4096)
        = SlabCache.new.allocate ⟨32, 16⟩ (some 4096)
      ∧ SlabCache.new.allocate ⟨32, 8⟩ (some 4096)
          = ((SlabCache.new.small.allocate (some 4096)).1,
             { SlabCache.new with
                 small := (SlabCache.new.small.allocate (some 4096)).2 })
      ∧ SlabCache.new.allocate ⟨128, 8⟩ (some 4096)
          = ((SlabCache.new.medium.allocate (some 4096)).1,
             { SlabCache.new with
                 medium := (SlabCache.new.medium.allocate (some 4096)).2 })
      ∧ SlabCache.new.allocate ⟨400, 8⟩ (some 4096)
          = ((SlabCache.new.large.allocate (some 4096)).1,
             { SlabCache.new with
                 large := (SlabCache.new.large.allocate (some 4096)).2 })
      ∧ SlabCache.new.allocate ⟨1024, 8⟩ (some 4096) = (none, SlabCache.new) :=
  ⟨(slabcache_allocate_routing SlabCache.new 32 8 16 (some 4096)).1,
   (slabcache_allocate_routing SlabCache.new 32 8 16 (some 4096)).2.1
     (by decide),
   (slabcache_allocate_routing SlabCache.new 128 8 8 (some 4096)).2.2.1
     (by decide) (by decide),
   (slabcache_allocate_routing SlabCache.new 400 8 8 (some 4096)).2.2.2.1
     (by decide) (by decide),
   (slabcache_allocate_routing SlabCache.new 1024 8 8 (some 4096)).2.2.2.2
     (by decide)⟩

/-- C10: a zero-size request is routed to the small size class (not
rejected): for every cache it is forwarded to the small allocator, on a
fresh cache with a successful reservation it returns a pointer, while
constructing a `Slab` directly with object size 0 always fails — the small
allocator builds its slabs with the class object size 64, never the
requested size. -/
theorem slabcache_zero_size_allocation (c : SlabCache) (a base : Nat)
    (mem : Option Nat) :
    c.allocate ⟨0, a⟩ mem =
        ((c.small.allocate mem).1, { c with small := (c.small.allocate mem).2 })
      ∧ ((SlabCache.new.allocate ⟨0, a⟩ (some base)).1).isSome
      ∧ Slab.new 0 mem = none := by
  refine ⟨?_, ?_, new_none_cases 0 mem (Or.inl rfl)⟩
  · unfold SlabCache.allocate
    dsimp only
    rw [if_pos (by omega)]
  · have hempty : ∀ t : Slab, some t ∈ (SlabAllocator.new 64).slabs →
        t.is_full = true := by
      intro t ht
      simp only [SlabAllocator.new, List.mem_replicate] at ht
      cases ht.2
    have hpo := passOne_all_full (SlabAllocator.new 64).slabs hempty
    have ha := allocate_eq_passOne_none (SlabAllocator.new 64) (some base)
      (SlabAllocator.new 64).slabs hpo
    have hp2 : (SlabAllocator.passTwo 64 (some base)
        (SlabAllocator.new 64).slabs).1 = some base := by
      apply passTwo_first_empty 64 base (by omega)
        (by rw [MAX_OBJECT_SIZE_eq]; omega) (SlabAllocator.new 64).slabs 0
      · rfl
      · intro j hj
        omega
    have hsmall : ((SlabCache.new.small.allocate (some base)).1) = some base := by
      rw [show SlabCache.new.small = SlabAllocator.new 64 from rfl, ha]
      exact hp2
    have hroute : SlabCache.new.allocate ⟨0, a⟩ (some base) =
        ((SlabCache.new.small.allocate (some base)).1,
         { SlabCache.new with
             small := (SlabCache.new.small.allocate (some base)).2 }) := by
      unfold SlabCache.allocate
      dsimp only
      rw [if_pos (by omega)]
    rw [hroute, hsmall]
    rfl

/-- C9: the global allocator adapter forwards both operations verbatim to
the underlying raw memory provider, for every layout and pointer — it never
invokes any `SlabCache`, `SlabAllocator` or `Slab` operation. -/
theorem global_adapter_pass_through {α β : Type} (rawAlloc : Layout → α)
    (rawDealloc : Nat → Layout → β) (layout : Layout) (ptr : Nat) :
    GlobalSlabAllocator.alloc rawAlloc layout = rawAlloc layout
      ∧ GlobalSlabAllocator.dealloc rawDealloc ptr layout
          = rawDealloc ptr layout :=
  ⟨rfl, rfl⟩

section AlignmentLemmas

lemma new_freeAligned (os base : Nat) (s : Slab) (hb : base % 8 = 0)
    (h : Slab.new os (some base) = some s) : Slab.freeAligned s := by
  obtain ⟨hfl, hmem, hos, hcap, hall⟩ := new_free_list os base s h
  intro q hq
  rw [hfl] at hq
  obtain ⟨i, hi, rfl⟩ := List.mem_map.mp hq
  obtain ⟨k, hk⟩ := align_size_dvd_8 os
  rw [hos, hk, show i * (8 * k) = 8 * (i * k) by ring]
  omega

lemma allocate_some_cases (s : Slab) (p : Nat) (s1 : Slab)
    (h : s.allocate = some (p, s1)) :
    p ∈ s.free_list ∧ ∀ q ∈ s1.free_list, q ∈ s.free_list := by
  match hfl : s.free_list with
  | [] => rw [allocate_nil s hfl] at h; cases h
  | hd :: tl =>
      rw [allocate_cons s hd tl hfl] at h
      simp only [Option.some.injEq, Prod.mk.injEq] at h
      obtain ⟨hphd, hs1⟩ := h
      subst hphd
      constructor
      · exact List.mem_cons_self _ _
      · intro q hq
        rw [← hs1] at hq
        simp only at hq
        exact List.mem_cons_of_mem _ hq

lemma passTwo_cons_none_new_fail (os : Nat) (mem : Option Nat)
    (rest : List (Option Slab)) (slab : Slab)
    (hnew : Slab.new os mem = some slab) (halloc : slab.allocate = none) :
    SlabAllocator.passTwo os mem (none :: rest) = (none, some slab :: rest) := by
  conv_lhs => unfold SlabAllocator.passTwo
  rw [hnew]
  dsimp only
  rw [halloc]

lemma passOne_aligned :
    ∀ l : List (Option Slab),
      (∀ t : Slab, some t ∈ l → Slab.freeAligned t) →
      ∀ p : Nat, (SlabAllocator.passOne l).1 = some p → p % 8 = 0 := by
  intro l
  induction l with
  | nil =>
      intro _ p hp
      rw [show SlabAllocator.passOne [] = (none, []) from rfl] at hp
      cases hp
  | cons x rest ih =>
      intro hal p hp
      have halr : ∀ t : Slab, some t ∈ rest → Slab.freeAligned t :=
        fun t ht => hal t (List.mem_cons_of_mem _ ht)
      cases x with
      | none =>
          rw [passOne_cons_none] at hp
          exact ih halr p hp
      | some t =>
          by_cases htf : t.is_full = true
          · rw [passOne_cons_full t rest htf] at hp
            exact ih halr p hp
          · rw [Bool.not_eq_true] at htf
            match hfl : t.free_list with
            | [] =>
                rw [passOne_cons_nonfull_nil t rest htf hfl] at hp
                exact ih halr p hp
            | hd :: tl =>
                rw [passOne_cons_avail t rest hd tl htf hfl] at hp
                have hp2 : hd = p := Option.some.inj hp
                subst hp2
                exact hal t (List.mem_cons_self _ _) hd (by rw [hfl]; simp)

lemma passTwo_aligned (os : Nat) (mem : Option Nat)
    (hm : ∀ b : Nat, mem = some b → b % 8 = 0) :
    ∀ l : List (Option Slab), ∀ p : Nat,
      (SlabAllocator.passTwo os mem l).1 = some p → p % 8 = 0 := by
  intro l
  induction l with
  | nil =>
      intro p hp
      rw [show SlabAllocator.passTwo os mem [] = (none, []) from rfl] at hp
      cases hp
  | cons x rest ih =>
      intro p hp
      cases x with
      | some s =>
          rw [passTwo_cons_some] at hp
          exact ih p hp
      | none =>
          match hnew : Slab.new os mem with
          | none =>
              rw [passTwo_cons_none_fail os mem rest hnew] at hp
              exact ih p hp
          | some slab =>
              have hv := (new_isSome_iff os mem).mp (by rw [hnew]; rfl)
              obtain ⟨base, hbase⟩ := Option.isSome_iff_exists.mp hv.2.2
              have hb := hm base hbase
              rw [hbase] at hnew
              have halslab := new_freeAligned os base slab hb hnew
              rw [← hbase] at hnew
              match halloc : slab.allocate with
              | none =>
                  rw [passTwo_cons_none_new_fail os mem rest slab hnew halloc]
                    at hp
                  cases hp
              | some (q, s1) =>
                  rw [passTwo_cons_none_new os mem rest slab s1 q hnew halloc]
                    at hp
                  have hp2 : q = p := Option.some.inj hp
                  subst hp2
                  exact halslab q (allocate_some_cases slab q s1 halloc).1

lemma allocator_allocate_aligned (a : SlabAllocator) (mem : Option Nat)
    (hal : ∀ t : Slab, some t ∈ a.slabs → Slab.freeAligned t)
    (hm : ∀ b : Nat, mem = some b → b % 8 = 0) :
    ∀ p : Nat, (a.allocate mem).1 = some p → p % 8 = 0 := by
  intro p hp
  rcases hpo : SlabAllocator.passOne a.slabs with ⟨r1, l1⟩
  cases r1 with
  | some q =>
      rw [allocate_eq_passOne_some a mem q l1 hpo] at hp
      have hp2 : q = p := Option.some.inj hp
      subst hp2
      apply passOne_aligned a.slabs hal q
      rw [hpo]
  | none =>
      rw [allocate_eq_passOne_none a mem l1 hpo] at hp
      exact passTwo_aligned a.object_size mem hm l1 p hp

end AlignmentLemmas

/-- C8: every address handed out is a multiple of 8, provided the raw
provider returns 8-aligned blocks: a fresh slab's free list is 8-aligned
(slot offsets are multiples of `aligned_size`, itself a multiple of 8);
`Slab::allocate` returns 8-aligned addresses and preserves the property;
`Slab::deallocate` preserves it for 8-aligned pointers; and the pointer
returned by any successful `SlabAllocator::allocate` or
`SlabCache::allocate` is 8-aligned. -/
theorem allocate_returns_8_aligned (os base p : Nat) (mem : Option Nat)
    (s s1 : Slab) (a : SlabAllocator) (c : SlabCache) (layout : Layout) :
    (base % 8 = 0 → Slab.new os (some base) = some s → Slab.freeAligned s)
      ∧ (Slab.freeAligned s → s.allocate = some (p, s1) →
          p % 8 = 0 ∧ Slab.freeAligned s1)
      ∧ (Slab.freeAligned s → p % 8 = 0 → Slab.freeAligned (s.deallocate p))
      ∧ ((∀ t : Slab, some t ∈ a.slabs → Slab.freeAligned t) →
          (∀ b : Nat, mem = some b → b % 8 = 0) →
          (a.allocate mem).1 = some p → p % 8 = 0)
      ∧ ((∀ t : Slab, some t ∈ c.small.slabs → Slab.freeAligned t) →
          (∀ t : Slab, some t ∈ c.medium.slabs → Slab.freeAligned t) →
          (∀ t : Slab, some t ∈ c.large.slabs → Slab.freeAligned t) →
          (∀ b : Nat, mem = some b → b % 8 = 0) →
          (c.allocate layout mem).1 = some p → p % 8 = 0) := by
  refine ⟨new_freeAligned os base s, ?_, ?_, ?_, ?_⟩
  · intro hal h
    obtain ⟨hmem, hsub⟩ := allocate_some_cases s p s1 h
    exact ⟨hal p hmem, fun q hq => hal q (hsub q hq)⟩
  · intro hal hp q hq
    unfold Slab.deallocate at hq
    simp only at hq
    rcases List.mem_cons.mp hq with h | h
    · rw [h]; exact hp
    · exact hal q h
  · intro hal hm
    exact allocator_allocate_aligned a mem hal hm p
  · intro hs hmd hl hm hp
    unfold SlabCache.allocate at hp
    dsimp only at hp
    split_ifs at hp with h1 h2 h3
    · exact allocator_allocate_aligned c.small mem hs hm p hp
    · exact allocator_allocate_aligned c.medium mem hmd hm p hp
    · exact allocator_allocate_aligned c.large mem hl hm p hp

/-- Witness for C8: the fresh slab `slabW` (base 4096), one allocation from
it, one deallocation, the allocator `allocW` and a fresh cache. -/
theorem allocate_returns_8_aligned_witness :
    Slab.freeAligned slabW
      ∧ (4096 % 8 = 0 ∧ Slab.freeAligned slabW1)
      ∧ Slab.freeAligned (slabW.deallocate 16)
      ∧ 4608 % 8 = 0
      ∧ 4096 % 8 = 0 := by
  have hmnone : ∀ b : Nat, (none : Option Nat) = some b → b % 8 = 0 := by
    intro b hb; cases hb
  have hm4096 : ∀ b : Nat, (some 4096 : Option Nat) = some b → b % 8 = 0 := by
    intro b hb; cases hb; decide
  have halW : ∀ t : Slab, some t ∈ allocW.slabs → Slab.freeAligned t := by
    intro t ht
    simp only [allocW, List.mem_cons, List.mem_replicate] at ht
    rcases ht with ht | ht
    · cases ht; decide
    · exact absurd ht.2 (by simp)
  have hemptyC : ∀ x : SlabAllocator, x.slabs = List.replicate 16 none →
      ∀ t : Slab, some t ∈ x.slabs → Slab.freeAligned t := by
    intro x hx t ht
    rw [hx] at ht
    simp only [List.mem_replicate] at ht
    cases ht.2
  refine ⟨?_, ?_, ?_, ?_, ?_⟩
  · exact (allocate_returns_8_aligned 512 4096 0 none slabW slabW1 allocW
      SlabCache.new ⟨0, 8⟩).1 (by decide) (by decide)
  · exact (allocate_returns_8_aligned 512 4096 4096 none slabW slabW1 allocW
      SlabCache.new ⟨0, 8⟩).2.1 (by decide) (by decide)
  · exact (allocate_returns_8_aligned 512 4096 16 none slabW slabW1 allocW
      SlabCache.new ⟨0, 8⟩).2.2.1 (by decide) (by decide)
  · exact (allocate_returns_8_aligned 512 4096 4608 none slabW slabW1 allocW
      SlabCache.new ⟨0, 8⟩).2.2.2.1 halW hmnone (by decide)
  · exact (allocate_returns_8_aligned 512 4096 4096 (some 4096) slabW slabW1
      allocW SlabCache.new ⟨0, 8⟩).2.2.2.2 (hemptyC _ rfl) (hemptyC _ rfl)
      (hemptyC _ rfl) hm4096 (by decide)
